import Mathlib

/-
Verification of the music-player backend processing core.

The numeric policies and the job/queue orchestration of the backend are
embedded shallowly: Python floats become rationals, fallible code (code that
can raise, such as a division by zero) returns Option, and the mutable job
registry and scheduler loop become explicit state types with step relations.
Each definition mirrors one function of the backend source:

  backend/audio_utils.py       -> namespace AudioTimeCalculator
  backend/focus_processor.py   -> namespace FocusProcessor
  backend/focus_api.py         -> cache table model (ProcessedVersion rows)
  backend/processing_queue.py  -> job state machine, cancel, queue info,
                                  scheduler admission loop
-/

namespace MusicPlayer

/-! ## Time sync calculator (backend/audio_utils.py, class AudioTimeCalculator) -/

namespace AudioTimeCalculator

/-- AudioTimeCalculator.calculate_sync_position: position mapping between the
original and the processed track.  Guard: non-positive BPM on either side
returns the original position unchanged. -/
def calculate_sync_position (original_position original_bpm processed_bpm : ℚ) : ℚ :=
  if original_bpm ≤ 0 ∨ processed_bpm ≤ 0 then original_position
  else original_position * (processed_bpm / original_bpm)

/-- AudioTimeCalculator.calculate_tempo_ratio: ratio between processed and
original BPM, 1.0 when the original BPM is non-positive. -/
def calculate_tempo_ratio (original_bpm processed_bpm : ℚ) : ℚ :=
  if original_bpm ≤ 0 then 1 else processed_bpm / original_bpm

/-- AudioTimeCalculator.estimate_processing_time: base cost 0.7x duration,
intensity factor up to 1.3, floored at 10 seconds. -/
def estimate_processing_time (duration_seconds focus_intensity : ℚ) : ℚ :=
  let base_time := duration_seconds * (7 / 10)
  let intensity_factor := 1 + (focus_intensity / 100) * (3 / 10)
  max (base_time * intensity_factor) 10

end AudioTimeCalculator

/-! ## Focus processor numeric policy (backend/focus_processor.py) -/

namespace FocusProcessor

/-- FocusProcessor.detect_bpm: the librosa call either yields a tempo value or
raises; the except branch substitutes the fallback 120.  The argument models
the outcome of the underlying detector call (none = exception raised). -/
def detect_bpm (librosa_tempo : Option ℚ) : ℚ :=
  match librosa_tempo with
  | some t => t
  | none => 120

/-- FocusProcessor.calculate_tempo_ratio: with a positive target BPM the ratio
is target over original; otherwise the auto policy clamps the slowed tempo at
50 BPM.  Both branches divide by original_bpm with no guard, so a zero
original BPM raises ZeroDivisionError in Python, modelled as none. -/
def calculate_tempo_ratio (original_bpm target_bpm focus_intensity : ℚ) : Option ℚ :=
  let intensity := focus_intensity / 100
  if 0 < target_bpm then
    if original_bpm = 0 then none else some (target_bpm / original_bpm)
  else
    let target_tempo := max 50 (original_bpm * (1 - intensity * (1 / 2)))
    if original_bpm = 0 then none else some (target_tempo / original_bpm)

end FocusProcessor

/-! ## Result cache table (backend/models.py ProcessedVersion and the cache
paths of backend/focus_api.py) -/

/-- One row of the processed_versions table, restricted to the fields the
cache key and the download path use. -/
structure ProcessedVersion where
  song_id : ℕ
  focus_intensity : ℕ
  target_bpm : ℚ
  processed_filepath : String
deriving DecidableEq

/-- The fields of the job result dictionary consumed by
download_processed_audio when it builds a ProcessedVersion row. -/
structure JobResultInfo where
  song_id : ℕ
  focus_intensity : ℕ
  processed_bpm : ℚ
  processed_file_path : String
deriving DecidableEq

/-- download_processed_audio builds the ProcessedVersion row from the job
result; the stored target_bpm field is the processed BPM of the result. -/
def rowOfResult (res : JobResultInfo) : ProcessedVersion :=
  { song_id := res.song_id
    focus_intensity := res.focus_intensity
    target_bpm := res.processed_bpm
    processed_filepath := res.processed_file_path }

/-- db.add followed by commit in download_processed_audio: appends a fresh row
to the table, with no lookup or overwrite of an existing row for the key. -/
def downloadInsert (table : List ProcessedVersion) (res : JobResultInfo) :
    List ProcessedVersion :=
  table ++ [rowOfResult res]

/-- Key equality used by the query filters of start_focus_processing and
download_cached_processed_audio. -/
def matchesKey (song_id focus_intensity : ℕ) (target_bpm : ℚ)
    (row : ProcessedVersion) : Bool :=
  decide (row.song_id = song_id ∧ row.focus_intensity = focus_intensity ∧
    row.target_bpm = target_bpm)

/-- query(...).filter(...).first(): the first row of the table matching the
key, in insertion (rowid) order. -/
def cacheLookup (table : List ProcessedVersion) (song_id focus_intensity : ℕ)
    (target_bpm : ℚ) : Option ProcessedVersion :=
  table.find? (matchesKey song_id focus_intensity target_bpm)

/-- All rows of the table matching a key. -/
def entriesFor (table : List ProcessedVersion) (song_id focus_intensity : ℕ)
    (target_bpm : ℚ) : List ProcessedVersion :=
  table.filter (matchesKey song_id focus_intensity target_bpm)

/-! ## Job lifecycle state machine (backend/processing_queue.py) -/

/-- JobStatus enumeration of processing_queue.py. -/
inductive JobStatus where
  | pending
  | running
  | completed
  | failed
  | cancelled
deriving DecidableEq

/-- The fields of a ProcessingJob record that the lifecycle invariant of the
spec talks about: status, result and error_message. -/
structure JobState where
  status : JobStatus
  result : Option String
  error_message : Option String
deriving DecidableEq

/-- A freshly submitted ProcessingJob: PENDING with neither result nor
error_message set (dataclass defaults in submit_job). -/
def initialJob : JobState :=
  { status := .pending, result := none, error_message := none }

/-- One mutation of a single job record, as performed by _process_job and
cancel_job.  start is the entry of _process_job; finishSuccess and
finishFailure are its success and failure branches; cancelPending is
cancel_job on a job not yet dispatched; cancelRunning is cancel_job on a
dispatched job combined with the asyncio.CancelledError handler of
_process_job, which sets error_message to "Job was cancelled". -/
inductive JobStep : JobState → JobState → Prop where
  | start (s : JobState) : s.status = .pending →
      JobStep s { s with status := .running }
  | finishSuccess (s : JobState) (r : String) : s.status = .running →
      JobStep s { s with status := .completed, result := some r }
  | finishFailure (s : JobState) (e : String) : s.status = .running →
      JobStep s { s with status := .failed, error_message := some e }
  | cancelPending (s : JobState) : s.status = .pending →
      JobStep s { s with status := .cancelled }
  | cancelRunning (s : JobState) : s.status = .running →
      JobStep s { s with status := .cancelled, error_message := some "Job was cancelled" }

/-- States of a job record reachable from submission. -/
inductive JobReachable : JobState → Prop where
  | init : JobReachable initialJob
  | step {s t : JobState} : JobReachable s → JobStep s t → JobReachable t

/-- The field/status relationship that actually holds on every reachable job
record: result is set iff COMPLETED; FAILED implies error_message set; and
error_message is only ever set on FAILED or CANCELLED jobs. -/
def JobFieldsInv (s : JobState) : Prop :=
  (s.result.isSome = true ↔ s.status = .completed) ∧
  (s.status = .failed → s.error_message.isSome = true) ∧
  (s.error_message.isSome = true → s.status = .failed ∨ s.status = .cancelled)

/-! ## Registry operations: cancel and queue info (backend/processing_queue.py) -/

/-- Terminal statuses: the already-finished check of cancel_job. -/
def isTerminal (st : JobStatus) : Bool :=
  match st with
  | .completed => true
  | .failed => true
  | .cancelled => true
  | _ => false

/-- A ProcessingJob as stored in the registry map, restricted to the fields
cancel_job and get_queue_info read or write. -/
structure RegistryJob where
  status : JobStatus
  completed_at : Option ℕ
deriving DecidableEq

/-- The registry map self.jobs (an association list in insertion order, as a
Python dict preserves insertion order) together with the self.running_jobs
keys. -/
structure QueueState where
  jobs : List (String × RegistryJob)
  running_jobs : List String
deriving DecidableEq

/-- self.jobs.get(job_id). -/
def lookupJob (jobs : List (String × RegistryJob)) (job_id : String) :
    Option RegistryJob :=
  (jobs.find? (fun p => p.1 == job_id)).map (fun p => p.2)

/-- Mutation of one job record held in the registry map. -/
def setJob (jobs : List (String × RegistryJob)) (job_id : String)
    (j : RegistryJob) : List (String × RegistryJob) :=
  jobs.map (fun p => if p.1 == job_id then (p.1, j) else p)

/-- ProcessingQueue.cancel_job: returns false leaving the state untouched when
the job is unknown or already terminal; otherwise sets the status to
CANCELLED, stamps completed_at, drops the running task handle and returns
true. -/
def cancel_job (s : QueueState) (job_id : String) (now : ℕ) :
    Bool × QueueState :=
  match lookupJob s.jobs job_id with
  | none => (false, s)
  | some j =>
    if isTerminal j.status then
      (false, s)
    else
      (true,
        { jobs := setJob s.jobs job_id
            { j with status := .cancelled, completed_at := some now }
          running_jobs := s.running_jobs.erase job_id })

/-- Snapshot returned by ProcessingQueue.get_queue_info. -/
structure QueueInfo where
  total_jobs : ℕ
  pending : ℕ
  running : ℕ
  completed : ℕ
  failed : ℕ
  max_concurrent : ℕ
deriving DecidableEq

/-- ProcessingQueue.get_queue_info: counts PENDING, RUNNING, COMPLETED and
FAILED jobs over the registry map; CANCELLED jobs are counted in none of the
four buckets, only in total_jobs. -/
def get_queue_info (jobs : List (String × RegistryJob))
    (max_concurrent_jobs : ℕ) : QueueInfo :=
  { total_jobs := jobs.length
    pending := (jobs.filter (fun p => decide (p.2.status = .pending))).length
    running := (jobs.filter (fun p => decide (p.2.status = .running))).length
    completed := (jobs.filter (fun p => decide (p.2.status = .completed))).length
    failed := (jobs.filter (fun p => decide (p.2.status = .failed))).length
    max_concurrent := max_concurrent_jobs }

/-! ## Progress reporting of a successful run (_process_job) -/

/-- The (current_step, progress_percent) pair of a job record. -/
structure ProgressView where
  current_step : String
  progress_percent : ℕ
deriving DecidableEq

/-- The update_progress closure of _process_job: overwrites both fields. -/
def update_progress (s : ProgressView) (step_name : String) (percent : ℕ) :
    ProgressView :=
  { current_step := step_name, progress_percent := percent }

/-- The successive (current_step, progress_percent) values a successful run of
_process_job writes to the job record, in program order: the dataclass
defaults, the step label written on RUNNING entry, the three update_progress
calls around the executor invocation, and the completion writes.  The tempo
detection, ratio computation, effects and encoding all run inside the
process_song_for_focus executor call, which takes no progress callback. -/
def processJobSuccessTrace : List ProgressView :=
  let s0 : ProgressView := { current_step := "Initializing", progress_percent := 0 }
  let s1 := { s0 with current_step := "Starting processing..." }
  let s2 := update_progress s1 "Loading audio..." 10
  let s3 := update_progress s2 "Separating vocals and instruments..." 20
  let s4 := update_progress s3 "Finalizing..." 90
  let s5 := { s4 with progress_percent := 100 }
  let s6 := { s5 with current_step := "Complete" }
  [s0, s1, s2, s3, s4, s5, s6]

/-! ## Scheduler admission loop (_worker_loop of backend/processing_queue.py) -/

/-- Python list slicing l[:n] with an integer bound: a negative bound counts
from the end of the list (pending_jobs[:can_start] in the source). -/
def pySliceTo {α : Type} (l : List α) (n : ℤ) : List α :=
  if 0 ≤ n then l.take n.toNat else l.take ((l.length : ℤ) + n).toNat

/-- Scheduler state for the C5 scenario: the job statuses in submission
order (a Python dict preserves insertion order, so iteration order equals
creation order), with the list index standing in for the job id, plus the
keys of self.running_jobs. -/
structure SchedState where
  statuses : List JobStatus
  running_jobs : List ℕ
deriving DecidableEq

/-- The PENDING jobs in registry iteration order, i.e. index order. -/
def pendingIds (statuses : List JobStatus) : List ℕ :=
  (List.range statuses.length).filter
    (fun i => decide (statuses.getD i .failed = .pending))

/-- One iteration of _worker_loop between sleeps: collect the PENDING jobs,
compute can_start = max_concurrent_jobs - len(running_jobs), dispatch the
first can_start of them (each dispatched _process_job task sets its status to
RUNNING before the loop wakes again, since asyncio runs created tasks up to
their first await while the loop sleeps), then reap the handles of finished
tasks (those whose job has reached a terminal status). -/
def workerIteration (max_concurrent_jobs : ℕ) (s : SchedState) : SchedState :=
  let pending := pendingIds s.statuses
  let can_start : ℤ := (max_concurrent_jobs : ℤ) - (s.running_jobs.length : ℤ)
  let started := pySliceTo pending can_start
  let statuses1 := started.foldl (fun sts i => sts.set i .running) s.statuses
  let running1 := (s.running_jobs ++ started).filter
    (fun i => ! isTerminal (statuses1.getD i .failed))
  { statuses := statuses1, running_jobs := running1 }

/-- Interleaving of the admission loop with worker-task completions: either
the loop runs one iteration, or one dispatched RUNNING job finishes with
COMPLETED or FAILED. -/
inductive SchedStep (m : ℕ) : SchedState → SchedState → Prop where
  | round (s : SchedState) : SchedStep m s (workerIteration m s)
  | finish (s : SchedState) (i : ℕ) (v : JobStatus) :
      i ∈ s.running_jobs → s.statuses.getD i .failed = .running →
      (v = .completed ∨ v = .failed) →
      SchedStep m s { statuses := s.statuses.set i v, running_jobs := s.running_jobs }

/-- The C5 scenario: five PENDING jobs J1..J5 submitted in order, with the
default ceiling max_concurrent_jobs = 2. -/
def initFive : SchedState :=
  { statuses := [.pending, .pending, .pending, .pending, .pending]
    running_jobs := [] }

/-- States reachable in the C5 scenario. -/
inductive SchedReachable : SchedState → Prop where
  | init : SchedReachable initFive
  | step {s t : SchedState} : SchedReachable s → SchedStep 2 s t → SchedReachable t

/-- Number of RUNNING jobs of a scheduler state. -/
def runningCount (s : SchedState) : ℕ :=
  ((List.range s.statuses.length).filter
    (fun i => decide (s.statuses.getD i .failed = .running))).length

/-- Scheduler invariant: the running-task handles are distinct, at most two,
within bounds, never attached to a PENDING job, and every RUNNING job has a
handle. -/
def SchedOk (s : SchedState) : Prop :=
  s.running_jobs.Nodup ∧
  s.running_jobs.length ≤ 2 ∧
  (∀ i ∈ s.running_jobs, i < s.statuses.length) ∧
  (∀ i ∈ s.running_jobs, s.statuses.getD i .failed ≠ .pending) ∧
  (∀ i, s.statuses.getD i .failed = .running → i ∈ s.running_jobs)

end MusicPlayer

namespace MusicPlayer

/-! ## Helper lemmas -/

/-- A status is non-terminal exactly when it is PENDING or RUNNING. -/
theorem isTerminal_false_iff (st : JobStatus) :
    isTerminal st = false ↔ st = .pending ∨ st = .running := by
  cases st <;> simp [isTerminal]

/-- Looking up a key after mutating that key yields the new record, provided
the key was present. -/
theorem lookupJob_setJob (jobs : List (String × RegistryJob)) (job_id : String)
    (j₀ j : RegistryJob) (h : lookupJob jobs job_id = some j₀) :
    lookupJob (setJob jobs job_id j) job_id = some j := by
  induction jobs with
  | nil => simp [lookupJob] at h
  | cons p rest ih =>
    by_cases hp : p.1 = job_id
    · simp [lookupJob, setJob, hp]
    · have hp' : (p.1 == job_id) = false := by simpa using hp
      have hh : lookupJob rest job_id = some j₀ := by
        unfold lookupJob at h ⊢
        rw [List.find?_cons, hp'] at h
        exact h
      unfold lookupJob setJob
      rw [List.map_cons]
      simp only [hp', Bool.false_eq_true, if_false]
      rw [List.find?_cons, hp']
      exact ih hh

/-- A job record satisfying the field invariant and not COMPLETED has no
result. -/
theorem JobFieldsInv.result_none {s : JobState} (h : JobFieldsInv s)
    (hs : s.status ≠ .completed) : s.result = none := by
  cases hr : s.result with
  | none => rfl
  | some v => exact absurd (h.1.mp (by simp [hr])) hs

/-- A job record satisfying the field invariant that is neither FAILED nor
CANCELLED has no error_message. -/
theorem JobFieldsInv.error_none {s : JobState} (h : JobFieldsInv s)
    (hf : s.status ≠ .failed) (hc : s.status ≠ .cancelled) :
    s.error_message = none := by
  cases he : s.error_message with
  | none => rfl
  | some v =>
    rcases h.2.2 (by simp [he]) with h' | h'
    · exact absurd h' hf
    · exact absurd h' hc

/-! ## Claims C1, C4, C8, C9 -/

/-- C1 counterexample: the ratio computation has no guard of its own.  At
detected tempo 0 the division aborts (ZeroDivisionError, modelled as none)
instead of substituting a fallback of 120, and at detected tempo -10 in auto
mode the result is the unguarded ratio -5, not the ratio 1 that a 120
substitution would give. -/
theorem calculate_tempo_ratio_claimed_guard_fails :
    FocusProcessor.calculate_tempo_ratio 0 0 50 = none ∧
    FocusProcessor.calculate_tempo_ratio (-10) 0 0 = some (-5) := by
  constructor <;> norm_num [FocusProcessor.calculate_tempo_ratio]

/-- C1 amended: the fallback of 120 is substituted only when the BPM detector
raises (the except branch of detect_bpm); the ratio computation itself divides
by the detected tempo unguarded, so it aborts exactly at detected tempo 0 and
succeeds for every nonzero detected tempo. -/
theorem calculate_tempo_ratio_amended
    (original_bpm target_bpm focus_intensity : ℚ) (h : original_bpm ≠ 0) :
    (FocusProcessor.calculate_tempo_ratio original_bpm target_bpm focus_intensity).isSome ∧
    FocusProcessor.detect_bpm none = 120 := by
  refine ⟨?_, rfl⟩
  unfold FocusProcessor.calculate_tempo_ratio
  by_cases ht : 0 < target_bpm <;> simp [ht, h]

/-- C1 amended witness at detected tempo 120. -/
theorem calculate_tempo_ratio_amended_witness :
    (FocusProcessor.calculate_tempo_ratio 120 0 50).isSome ∧
    FocusProcessor.detect_bpm none = 120 :=
  calculate_tempo_ratio_amended 120 0 50 (by norm_num)

/-- C4 counterexample: at detected tempo -10 (auto mode, intensity 0) the
pipeline ratio is -5, but the time-sync calculator returns 1 for the same
pair of tempos because of its non-positive-BPM guard, so the claimed equality
fails for non-positive detected tempos. -/
theorem tempo_ratio_cross_consistency_fails_nonpositive :
    FocusProcessor.calculate_tempo_ratio (-10) 0 0 = some (-5) ∧
    AudioTimeCalculator.calculate_tempo_ratio (-10) ((-10) * (-5)) = 1 ∧
    (1 : ℚ) ≠ -5 := by
  refine ⟨?_, ?_, by norm_num⟩ <;> norm_num [FocusProcessor.calculate_tempo_ratio,
    AudioTimeCalculator.calculate_tempo_ratio]

/-- C4 amended: for every positive detected tempo, the ratio computed by the
pipeline policy coincides with the ratio the time-sync calculator reports for
the corresponding pair of original and processed tempos. -/
theorem tempo_ratio_cross_consistency
    (focus_intensity target_bpm original_bpm r : ℚ)
    (hi0 : 0 ≤ focus_intensity) (hi1 : focus_intensity ≤ 100) (hd : 0 < original_bpm)
    (hr : FocusProcessor.calculate_tempo_ratio original_bpm target_bpm focus_intensity =
      some r) :
    AudioTimeCalculator.calculate_tempo_ratio original_bpm (original_bpm * r) = r := by
  unfold AudioTimeCalculator.calculate_tempo_ratio
  rw [if_neg (not_le.mpr hd)]
  exact mul_div_cancel_left₀ r (ne_of_gt hd)

/-- C4 amended witness: intensity 50, auto mode, detected tempo 120 gives the
pipeline ratio 3/4, and the time-sync calculator agrees. -/
theorem tempo_ratio_cross_consistency_witness :
    AudioTimeCalculator.calculate_tempo_ratio 120 (120 * (3 / 4)) = 3 / 4 :=
  tempo_ratio_cross_consistency 50 0 120 (3 / 4) (by norm_num) (by norm_num) (by norm_num)
    (by norm_num [FocusProcessor.calculate_tempo_ratio])

/-- C8: estimate_processing_time is monotone non-decreasing in the intensity
for a fixed duration, and every estimate is at least the 10 second floor. -/
theorem estimate_processing_time_monotone_and_floor
    (d i₁ i₂ : ℚ) (h0 : 0 ≤ i₁) (h12 : i₁ ≤ i₂) (h100 : i₂ ≤ 100) :
    AudioTimeCalculator.estimate_processing_time d i₁ ≤
      AudioTimeCalculator.estimate_processing_time d i₂ ∧
    ∀ d₀ i₀ : ℚ, 10 ≤ AudioTimeCalculator.estimate_processing_time d₀ i₀ := by
  constructor
  · unfold AudioTimeCalculator.estimate_processing_time
    rcases le_or_lt 0 d with hd | hd
    · have hf : d * (7 / 10) * (1 + i₁ / 100 * (3 / 10)) ≤
          d * (7 / 10) * (1 + i₂ / 100 * (3 / 10)) := by nlinarith
      exact max_le_max hf le_rfl
    · have h₁ : d * (7 / 10) * (1 + i₁ / 100 * (3 / 10)) ≤ 10 := by nlinarith
      have h₂ : d * (7 / 10) * (1 + i₂ / 100 * (3 / 10)) ≤ 10 := by nlinarith
      simp only [max_eq_right h₁, max_eq_right h₂, le_refl]
  · intro d₀ i₀
    exact le_max_right _ _

/-- C8 witness at duration 180 and intensities 30 and 60. -/
theorem estimate_processing_time_monotone_and_floor_witness :
    AudioTimeCalculator.estimate_processing_time 180 30 ≤
      AudioTimeCalculator.estimate_processing_time 180 60 ∧
    ∀ d₀ i₀ : ℚ, 10 ≤ AudioTimeCalculator.estimate_processing_time d₀ i₀ :=
  estimate_processing_time_monotone_and_floor 180 30 60 (by norm_num) (by norm_num)
    (by norm_num)

/-- C9: when the original and the processed tempo agree and are positive, the
synchronized position equals the original position. -/
theorem calculate_sync_position_identity (p t : ℚ) (ht : 0 < t) :
    AudioTimeCalculator.calculate_sync_position p t t = p := by
  unfold AudioTimeCalculator.calculate_sync_position
  rw [if_neg (by push_neg; exact ⟨ht, ht⟩), div_self (ne_of_gt ht), mul_one]

/-- C9 witness at position 150 and tempo 120. -/
theorem calculate_sync_position_identity_witness :
    AudioTimeCalculator.calculate_sync_position 150 120 120 = 150 :=
  calculate_sync_position_identity 150 120 (by norm_num)

/-! ## Claim C2 -/

/-- C2 counterexample: two successful computations for the same key, each
followed by the download path, append two rows; the table then holds two
entries for that key, and the lookup still returns the first row, so the
later write neither overwrites nor shadows the earlier entry. -/
theorem cache_duplicate_entries_reachable :
    (entriesFor (downloadInsert (downloadInsert [] ⟨1, 50, 90, "a.mp3"⟩)
      ⟨1, 50, 90, "b.mp3"⟩) 1 50 90).length = 2 ∧
    ¬ (entriesFor (downloadInsert (downloadInsert [] ⟨1, 50, 90, "a.mp3"⟩)
      ⟨1, 50, 90, "b.mp3"⟩) 1 50 90).length ≤ 1 ∧
    cacheLookup (downloadInsert (downloadInsert [] ⟨1, 50, 90, "a.mp3"⟩)
      ⟨1, 50, 90, "b.mp3"⟩) 1 50 90 = some ⟨1, 50, 90, "a.mp3"⟩ := by
  refine ⟨by decide, by decide, by decide⟩

/-- C2 amended: the completion/download path appends one fresh row per
successful download without checking for an existing entry, so the set of
entries for the key of the new row grows by exactly that row, and a lookup
keeps returning the earliest matching row rather than the later write. -/
theorem cache_insert_appends (table : List ProcessedVersion) (res : JobResultInfo)
    (song_id focus_intensity : ℕ) (target_bpm : ℚ) (e : ProcessedVersion)
    (h : cacheLookup table song_id focus_intensity target_bpm = some e) :
    cacheLookup (downloadInsert table res) song_id focus_intensity target_bpm = some e ∧
    entriesFor (downloadInsert table res) res.song_id res.focus_intensity
        res.processed_bpm =
      entriesFor table res.song_id res.focus_intensity res.processed_bpm ++
        [rowOfResult res] := by
  constructor
  · unfold cacheLookup at h
    unfold cacheLookup downloadInsert
    rw [List.find?_append, h]
    rfl
  · unfold entriesFor downloadInsert
    rw [List.filter_append]
    congr 1
    simp [matchesKey, rowOfResult]

/-- C2 amended witness on a one-row table. -/
theorem cache_insert_appends_witness :
    cacheLookup (downloadInsert [⟨1, 50, 90, "a.mp3"⟩] ⟨1, 50, 90, "b.mp3"⟩)
        1 50 90 = some ⟨1, 50, 90, "a.mp3"⟩ ∧
    entriesFor (downloadInsert [⟨1, 50, 90, "a.mp3"⟩] ⟨1, 50, 90, "b.mp3"⟩)
        1 50 90 =
      entriesFor [⟨1, 50, 90, "a.mp3"⟩] 1 50 90 ++
        [rowOfResult ⟨1, 50, 90, "b.mp3"⟩] :=
  cache_insert_appends [⟨1, 50, 90, "a.mp3"⟩] ⟨1, 50, 90, "b.mp3"⟩ 1 50 90
    ⟨1, 50, 90, "a.mp3"⟩ (by decide)

/-! ## Claim C3 -/

/-- C3 counterexample: cancelling a RUNNING job takes the CancelledError path
of _process_job, which sets error_message to "Job was cancelled"; the
resulting record is CANCELLED with its error field set, contradicting error
set iff FAILED. -/
theorem cancelled_job_with_error_reachable :
    JobReachable ⟨.cancelled, none, some "Job was cancelled"⟩ ∧
    ((Option.isSome (some "Job was cancelled") = true) ∧
      JobStatus.cancelled ≠ JobStatus.failed) := by
  refine ⟨?_, by decide, by decide⟩
  have h1 : JobStep initialJob ⟨.running, none, none⟩ :=
    JobStep.start initialJob rfl
  have h2 : JobStep (⟨.running, none, none⟩ : JobState)
      ⟨.cancelled, none, some "Job was cancelled"⟩ :=
    JobStep.cancelRunning ⟨.running, none, none⟩ rfl
  exact (JobReachable.init.step h1).step h2

/-- C3 amended: on every reachable job record, result is set iff the status is
COMPLETED, FAILED implies error_message set, and error_message is set only on
FAILED or CANCELLED records (a job cancelled while RUNNING carries the
"Job was cancelled" message, one cancelled while PENDING carries none). -/
theorem job_record_fields_invariant (s : JobState) (h : JobReachable s) :
    JobFieldsInv s := by
  induction h with
  | init => exact ⟨by simp [initialJob], by simp [initialJob], by simp [initialJob]⟩
  | @step u t hr hst ih =>
    cases hst with
    | start hp =>
      have hres : u.result = none := ih.result_none (by simp [hp])
      have herr : u.error_message = none := ih.error_none (by simp [hp]) (by simp [hp])
      exact ⟨by simp [hres], by simp, by simp [herr]⟩
    | finishSuccess r hp =>
      have herr : u.error_message = none := ih.error_none (by simp [hp]) (by simp [hp])
      exact ⟨by simp, by simp, by simp [herr]⟩
    | finishFailure e hp =>
      have hres : u.result = none := ih.result_none (by simp [hp])
      exact ⟨by simp [hres], by simp, by simp⟩
    | cancelPending hp =>
      have hres : u.result = none := ih.result_none (by simp [hp])
      have herr : u.error_message = none := ih.error_none (by simp [hp]) (by simp [hp])
      exact ⟨by simp [hres], by simp, by simp [herr]⟩
    | cancelRunning hp =>
      have hres : u.result = none := ih.result_none (by simp [hp])
      exact ⟨by simp [hres], by simp, by simp⟩

/-- C3 amended witness at the initial record. -/
theorem job_record_fields_invariant_witness : JobFieldsInv initialJob :=
  job_record_fields_invariant initialJob JobReachable.init

/-! ## Claim C6 -/

/-- C6: cancel_job returns true and moves the job to CANCELLED exactly when
the job exists with status PENDING or RUNNING; when it returns false the
whole queue state is left unchanged; on success the looked-up record becomes
CANCELLED with completed_at stamped; and the job state machine moves a
PENDING job to CANCELLED in a single step, so a job cancelled while PENDING
is never observed RUNNING. -/
theorem cancel_job_spec (s : QueueState) (job_id : String) (now : ℕ) :
    ((cancel_job s job_id now).1 = true ↔
      ∃ j, lookupJob s.jobs job_id = some j ∧
        (j.status = .pending ∨ j.status = .running)) ∧
    ((cancel_job s job_id now).1 = false → (cancel_job s job_id now).2 = s) ∧
    (∀ j, lookupJob s.jobs job_id = some j →
      (j.status = .pending ∨ j.status = .running) →
      lookupJob (cancel_job s job_id now).2.jobs job_id =
        some ⟨.cancelled, some now⟩) ∧
    (∀ u : JobState, u.status = .pending →
      JobStep u { u with status := .cancelled }) := by
  refine ⟨?_, ?_, ?_, fun u hu => JobStep.cancelPending u hu⟩
  · cases hl : lookupJob s.jobs job_id with
    | none => simp [cancel_job, hl]
    | some j =>
      by_cases ht : isTerminal j.status = true
      · have hnot : ¬ (j.status = .pending ∨ j.status = .running) := by
          rw [← isTerminal_false_iff]
          simp [ht]
        simp [cancel_job, hl, ht, hnot]
      · have hpr := (isTerminal_false_iff j.status).mp (by simpa using ht)
        simp [cancel_job, hl, ht]
        exact hpr
  · intro hf
    cases hl : lookupJob s.jobs job_id with
    | none => simp [cancel_job, hl]
    | some j =>
      by_cases ht : isTerminal j.status = true
      · simp [cancel_job, hl, ht]
      · simp [cancel_job, hl, ht] at hf
  · intro j hj hpr
    have ht : isTerminal j.status = false := (isTerminal_false_iff j.status).mpr hpr
    simp only [cancel_job, hj, ht, Bool.false_eq_true, if_false]
    exact lookupJob_setJob s.jobs job_id j _ hj

/-- C6 witness: cancelling the single PENDING job of a one-job registry
returns true. -/
theorem cancel_job_spec_witness :
    (cancel_job ⟨[("a", ⟨.pending, none⟩)], []⟩ "a" 5).1 = true :=
  (cancel_job_spec ⟨[("a", ⟨.pending, none⟩)], []⟩ "a" 5).1.mpr
    ⟨⟨.pending, none⟩, by decide, Or.inl rfl⟩

/-! ## Claim C7 -/

/-- C7 counterexample: the progress percentages recorded during a successful
run are exactly 0, 0, 10, 20, 90, 100, 100; the checkpoints the claim
requires at 65 (tempo detection), 70 (ratio computation) and 95 (encoding)
never appear on the job record. -/
theorem progress_checkpoints_missing :
    processJobSuccessTrace.map (fun s => s.progress_percent) =
      [0, 0, 10, 20, 90, 100, 100] ∧
    ¬ 65 ∈ processJobSuccessTrace.map (fun s => s.progress_percent) ∧
    ¬ 70 ∈ processJobSuccessTrace.map (fun s => s.progress_percent) ∧
    ¬ 95 ∈ processJobSuccessTrace.map (fun s => s.progress_percent) := by
  refine ⟨by decide, by decide, by decide, by decide⟩

/-- C7 amended: a successful run records, in order: the initializing
defaults, a step label change still at 0, load at 10, separation at 20,
finalize at 90 and completion at 100, and the recorded percentages are
monotone non-decreasing; tempo detection, ratio computation, effects and
encoding run inside the executor call with no checkpoint of their own. -/
theorem progress_trace_spec :
    processJobSuccessTrace.map (fun s => (s.current_step, s.progress_percent)) =
      [("Initializing", 0), ("Starting processing...", 0),
        ("Loading audio...", 10), ("Separating vocals and instruments...", 20),
        ("Finalizing...", 90), ("Finalizing...", 100), ("Complete", 100)] ∧
    List.Chain' (fun a b => a ≤ b)
      (processJobSuccessTrace.map (fun s => s.progress_percent)) := by
  refine ⟨rfl, ?_⟩
  have hlist : processJobSuccessTrace.map (fun s => s.progress_percent) =
      [0, 0, 10, 20, 90, 100, 100] := rfl
  rw [hlist]
  norm_num [List.chain'_cons]

/-! ## Claim C10 -/

/-- The five status buckets partition the registry. -/
theorem status_counts_partition (jobs : List (String × RegistryJob)) :
    (jobs.filter (fun p => decide (p.2.status = .pending))).length +
      (jobs.filter (fun p => decide (p.2.status = .running))).length +
      (jobs.filter (fun p => decide (p.2.status = .completed))).length +
      (jobs.filter (fun p => decide (p.2.status = .failed))).length +
      (jobs.filter (fun p => decide (p.2.status = .cancelled))).length =
      jobs.length := by
  induction jobs with
  | nil => simp
  | cons p rest ih =>
    cases hs : p.2.status <;> simp [List.filter_cons, hs] <;> omega

/-- C10: get_queue_info omits CANCELLED jobs from all four status counts: the
four counts plus the number of CANCELLED jobs equal total_jobs, so the sum of
the four counts never exceeds total_jobs and falls strictly below it exactly
when at least one job is CANCELLED. -/
theorem queue_info_excludes_cancelled (jobs : List (String × RegistryJob))
    (max_concurrent_jobs : ℕ) :
    (get_queue_info jobs max_concurrent_jobs).pending +
        (get_queue_info jobs max_concurrent_jobs).running +
        (get_queue_info jobs max_concurrent_jobs).completed +
        (get_queue_info jobs max_concurrent_jobs).failed +
        (jobs.filter (fun p => decide (p.2.status = .cancelled))).length =
      (get_queue_info jobs max_concurrent_jobs).total_jobs ∧
    (get_queue_info jobs max_concurrent_jobs).pending +
        (get_queue_info jobs max_concurrent_jobs).running +
        (get_queue_info jobs max_concurrent_jobs).completed +
        (get_queue_info jobs max_concurrent_jobs).failed ≤
      (get_queue_info jobs max_concurrent_jobs).total_jobs ∧
    ((get_queue_info jobs max_concurrent_jobs).pending +
        (get_queue_info jobs max_concurrent_jobs).running +
        (get_queue_info jobs max_concurrent_jobs).completed +
        (get_queue_info jobs max_concurrent_jobs).failed <
      (get_queue_info jobs max_concurrent_jobs).total_jobs ↔
      ∃ p ∈ jobs, p.2.status = .cancelled) := by
  have hp := status_counts_partition jobs
  have hmem : 0 < (jobs.filter (fun p => decide (p.2.status = .cancelled))).length ↔
      ∃ p ∈ jobs, p.2.status = .cancelled := by
    rw [List.length_pos_iff_exists_mem]
    constructor
    · rintro ⟨a, ha⟩
      exact ⟨a, List.mem_of_mem_filter ha, by simpa using List.of_mem_filter ha⟩
    · rintro ⟨a, hamem, hast⟩
      exact ⟨a, List.mem_filter.mpr ⟨hamem, by simp [hast]⟩⟩
  simp only [get_queue_info]
  refine ⟨hp, by omega, ?_⟩
  constructor
  · intro hlt
    exact hmem.mp (by omega)
  · intro hex
    have := hmem.mpr hex
    omega

/-! ## Claim C5: scheduler helper lemmas -/

/-- getD after set, as a single conditional. -/
theorem getD_set_if (sts : List JobStatus) (i j : ℕ) (v : JobStatus) :
    (sts.set i v).getD j .failed =
      if i = j ∧ i < sts.length then v else sts.getD j .failed := by
  rw [List.getD_eq_getElem?_getD, List.getD_eq_getElem?_getD, List.getElem?_set]
  by_cases hij : i = j
  · subst hij
    by_cases hlen : i < sts.length
    · simp [hlen]
    · have : sts[i]? = none := by
        rw [List.getElem?_eq_none]
        omega
      simp [hlen, this]
  · simp [hij]

/-- Setting a batch of indices to RUNNING preserves the length. -/
theorem foldl_set_length (L : List ℕ) (sts : List JobStatus) :
    (L.foldl (fun a i => a.set i JobStatus.running) sts).length = sts.length := by
  induction L generalizing sts with
  | nil => rfl
  | cons i L ih => simp [List.foldl_cons, ih, List.length_set]

/-- getD after setting a batch of indices to RUNNING. -/
theorem foldl_set_getD (L : List ℕ) (sts : List JobStatus) (j : ℕ) :
    (L.foldl (fun a i => a.set i JobStatus.running) sts).getD j .failed =
      if j ∈ L ∧ j < sts.length then .running else sts.getD j .failed := by
  induction L generalizing sts with
  | nil => simp
  | cons i L ih =>
    rw [List.foldl_cons, ih]
    by_cases hj : j ∈ L ∧ j < (sts.set i JobStatus.running).length
    · rw [if_pos hj]
      have hj' : j ∈ i :: L ∧ j < sts.length := by
        refine ⟨List.mem_cons_of_mem _ hj.1, ?_⟩
        simpa [List.length_set] using hj.2
      rw [if_pos hj']
    · rw [if_neg hj, getD_set_if]
      by_cases hij : i = j ∧ i < sts.length
      · rw [if_pos hij]
        have hj' : j ∈ i :: L ∧ j < sts.length := by
          exact ⟨by simp [hij.1.symm], hij.1 ▸ hij.2⟩
        rw [if_pos hj']
      · rw [if_neg hij]
        have hj' : ¬ (j ∈ i :: L ∧ j < sts.length) := by
          rintro ⟨hmem, hlt⟩
          rcases List.mem_cons.mp hmem with h | h
        -- j = i contradicts hij; j ∈ L contradicts hj
          · exact hij ⟨h.symm, h ▸ hlt⟩
          · exact hj ⟨h, by simpa [List.length_set] using hlt⟩
        rw [if_neg hj']

/-- The list of PENDING indices has no duplicates. -/
theorem pendingIds_nodup (sts : List JobStatus) : (pendingIds sts).Nodup :=
  (List.nodup_range sts.length).filter _

/-- Members of the PENDING index list are in bounds and PENDING. -/
theorem mem_pendingIds {sts : List JobStatus} {i : ℕ} (h : i ∈ pendingIds sts) :
    i < sts.length ∧ sts.getD i .failed = .pending := by
  unfold pendingIds at h
  refine ⟨List.mem_range.mp (List.mem_of_mem_filter h), ?_⟩
  simpa using List.of_mem_filter h

/-- Core preservation argument for one admission round, stated on the raw
components: if the invariant holds and the dispatched batch consists of
distinct in-bounds PENDING jobs fitting in the remaining capacity, the
post-round state satisfies the invariant again. -/
theorem schedOk_after_admission
    (sts : List JobStatus) (run started : List ℕ)
    (hnd : run.Nodup) (hbound : ∀ i ∈ run, i < sts.length)
    (hnp : ∀ i ∈ run, sts.getD i .failed ≠ .pending)
    (hrun : ∀ i, sts.getD i .failed = .running → i ∈ run)
    (hstnd : started.Nodup)
    (hstlen : run.length + started.length ≤ 2)
    (hstmem : ∀ i ∈ started, i < sts.length ∧ sts.getD i .failed = .pending) :
    SchedOk ⟨started.foldl (fun a i => a.set i .running) sts,
      (run ++ started).filter (fun i =>
        ! isTerminal ((started.foldl (fun a i => a.set i .running) sts).getD i
          .failed))⟩ := by
  have hdisj : run.Disjoint started := by
    intro a ha hb
    exact hnp a ha (hstmem a hb).2
  refine ⟨?_, ?_, ?_, ?_, ?_⟩
  · exact (hnd.append hstnd hdisj).filter _
  · calc ((run ++ started).filter _).length ≤ (run ++ started).length :=
          List.length_filter_le _ _
      _ = run.length + started.length := List.length_append run started
      _ ≤ 2 := hstlen
  · intro i hi
    rw [foldl_set_length]
    rcases List.mem_append.mp (List.mem_of_mem_filter hi) with h | h
    · exact hbound i h
    · exact (hstmem i h).1
  · intro i hi
    rw [foldl_set_getD]
    by_cases hc : i ∈ started ∧ i < sts.length
    · rw [if_pos hc]
      decide
    · rw [if_neg hc]
      rcases List.mem_append.mp (List.mem_of_mem_filter hi) with h | h
      · exact hnp i h
      · exact absurd ⟨h, (hstmem i h).1⟩ hc
  · intro j hj
    rw [foldl_set_getD] at hj
    by_cases hc : j ∈ started ∧ j < sts.length
    · refine List.mem_filter.mpr ⟨List.mem_append.mpr (Or.inr hc.1), ?_⟩
      rw [foldl_set_getD, if_pos hc]
      decide
    · rw [if_neg hc] at hj
      refine List.mem_filter.mpr ⟨List.mem_append.mpr (Or.inl (hrun j hj)), ?_⟩
      rw [foldl_set_getD, if_neg hc, hj]
      decide

/-- One admission round preserves the scheduler invariant. -/
theorem schedOk_workerIteration (s : SchedState) (h : SchedOk s) :
    SchedOk (workerIteration 2 s) := by
  obtain ⟨hnd, hlen, hbound, hnp, hrun⟩ := h
  have hcs : (0 : ℤ) ≤ ((2 : ℕ) : ℤ) - (s.running_jobs.length : ℤ) := by omega
  simp only [workerIteration, pySliceTo, if_pos hcs]
  apply schedOk_after_admission s.statuses s.running_jobs _ hnd hbound hnp hrun
  · exact (pendingIds_nodup s.statuses).sublist
      (List.take_sublist _ (pendingIds s.statuses))
  · have h1 : ((pendingIds s.statuses).take
        (((2 : ℕ) : ℤ) - (s.running_jobs.length : ℤ)).toNat).length ≤
        (((2 : ℕ) : ℤ) - (s.running_jobs.length : ℤ)).toNat := by
      rw [List.length_take]
      omega
    omega
  · intro i hi
    exact mem_pendingIds (List.mem_of_mem_take hi)

/-- A worker completion preserves the scheduler invariant. -/
theorem schedOk_finish (s : SchedState) (i : ℕ) (v : JobStatus)
    (hi : i ∈ s.running_jobs) (hv : v = .completed ∨ v = .failed)
    (h : SchedOk s) :
    SchedOk ⟨s.statuses.set i v, s.running_jobs⟩ := by
  obtain ⟨hnd, hlen, hbound, hnp, hrun⟩ := h
  have hvne : v ≠ .pending ∧ v ≠ .running := by
    rcases hv with h | h <;> subst h <;> exact ⟨by decide, by decide⟩
  refine ⟨hnd, hlen, ?_, ?_, ?_⟩
  · intro a ha
    rw [List.length_set]
    exact hbound a ha
  · intro a ha
    rw [getD_set_if]
    by_cases hc : i = a ∧ i < s.statuses.length
    · rw [if_pos hc]
      exact hvne.1
    · rw [if_neg hc]
      exact hnp a ha
  · intro a ha
    rw [getD_set_if] at ha
    by_cases hc : i = a ∧ i < s.statuses.length
    · rw [if_pos hc] at ha
      exact absurd ha hvne.2
    · rw [if_neg hc] at ha
      exact hrun a ha

/-- No job of the initial five-job scenario is RUNNING. -/
theorem initFive_not_running (i : ℕ) :
    initFive.statuses.getD i .failed ≠ .running := by
  rcases i with _ | _ | _ | _ | _ | n
  · decide
  · decide
  · decide
  · decide
  · decide
  · simp [initFive, List.getD_eq_getElem?_getD]

/-- The scheduler invariant holds in every reachable state of the C5
scenario. -/
theorem schedOk_reachable (s : SchedState) (h : SchedReachable s) : SchedOk s := by
  induction h with
  | init =>
    refine ⟨List.nodup_nil, by simp [initFive], ?_, ?_, ?_⟩
    · intro i hi
      cases hi
    · intro i hi
      cases hi
    · intro i hirun
      exact absurd hirun (initFive_not_running i)
  | step hr hst ih =>
    cases hst with
    | round => exact schedOk_workerIteration _ ih
    | finish i v hi hrunning hv => exact schedOk_finish _ i v hi hv ih

/-- The invariant bounds the number of RUNNING jobs by two. -/
theorem runningCount_le_two (s : SchedState) (h : SchedOk s) :
    runningCount s ≤ 2 := by
  obtain ⟨hnd, hlen, hbound, hnp, hrun⟩ := h
  have hsub : ((List.range s.statuses.length).filter
      (fun i => decide (s.statuses.getD i .failed = .running))) ⊆
      s.running_jobs := by
    intro a ha
    exact hrun a (by simpa using List.of_mem_filter ha)
  have hnd2 : ((List.range s.statuses.length).filter
      (fun i => decide (s.statuses.getD i .failed = .running))).Nodup :=
    (List.nodup_range _).filter _
  exact le_trans (List.subperm_of_subset hnd2 hsub).length_le hlen

/-! ## Claim C5 -/

/-- C5: in the five-job scenario with max_concurrent_jobs = 2, every
reachable scheduler state has at most two RUNNING jobs, and the first
transition possible from the initial state is the admission round that
dispatches exactly the two oldest jobs J1 and J2 (indices 0 and 1), leaving
J3..J5 PENDING. -/
theorem scheduler_admission_spec :
    (∀ s, SchedReachable s → runningCount s ≤ 2) ∧
    (∀ s, SchedStep 2 initFive s →
      s = ⟨[.running, .running, .pending, .pending, .pending], [0, 1]⟩) := by
  constructor
  · intro s hs
    exact runningCount_le_two s (schedOk_reachable s hs)
  · intro s hs
    cases hs with
    | round => decide
    | finish i v hi hrunning hv => exact absurd hrunning (initFive_not_running i)

/-- C5 witness: the initial scenario state and its first admission round. -/
theorem scheduler_admission_spec_witness :
    runningCount initFive ≤ 2 ∧
    workerIteration 2 initFive =
      ⟨[.running, .running, .pending, .pending, .pending], [0, 1]⟩ :=
  ⟨scheduler_admission_spec.1 initFive SchedReachable.init,
    scheduler_admission_spec.2 (workerIteration 2 initFive)
      (SchedStep.round initFive)⟩

end MusicPlayer
